import Mathlib

/-!
Verification of the `gql` package of GannettDigital/graphql-gen.

This file is a shallow embedding of the runtime part of the package:

* field naming (`fieldName`, `nameIsValidGraphQL`),
* field extraction (`ExtractField`, `deepExtractFieldWithError`, `DeepExtractField`),
* list filtering (the comparators of comparator.go and `listFilter.match`),
* list sorting (`listSort`, including the Go standard library's
  `sort.SliceStable` algorithm which it calls),
* the list-field resolution pipeline of `ResolveListField`,
* builder construction (`NewObjectBuilder`) and the custom-field overlay
  merge (`AddCustomFields` with `findObjectField`).

Go `interface{}` values flowing through these functions are embedded as the
inductive `Value`.  Go panics are embedded as the `Except.error` branch of the
result type: functions that Go implements as total but that can panic at
runtime (`reflect.Value.Interface` on an unexported field, a failed type
assertion, an explicit `panic(err)`) return `Except String _` and yield
`.error msg` exactly where the Go code panics.  `float64` payloads are
embedded as `Rat` (only their ordering and truncation-to-int are used by the
code under verification; no claim touches rounding behaviour of binary
floats).  Go maps are embedded as association lists (first binding wins on
lookup, insert replaces in place or appends).
-/

namespace GqlGen

/-- Character that separates path segments, Go constant `FieldPathSeparator = "_"`. -/
def fieldPathSepChar : Char := '_'

/-- Go constant `FieldPathSeparator` as a string. -/
def FieldPathSeparator : String := "_"

/-- Embedding of Go `strings.Split(s, sep)` for a one-character separator,
which is the only form the package uses (separators "_" and ",").  Matches Go
semantics: the result is never empty and splitting the empty string yields
a single empty segment. -/
def goSplitAux (sep : Char) : List Char → List Char → List (List Char)
  | [], acc => [acc.reverse]
  | c :: rest, acc =>
      if c = sep then acc.reverse :: goSplitAux sep rest []
      else goSplitAux sep rest (c :: acc)

/-- Embedding of Go `strings.Split` (one-character separator). -/
def goSplit (s : String) (sep : Char) : List String :=
  (goSplitAux sep s.data []).map List.asString

/-- Embedding of Go `strings.Replace(s, "_", "", -1)`: removing every
occurrence of a one-character pattern is filtering that character out. -/
def goStripChar (s : String) (c : Char) : String :=
  (s.data.filter (fun d => d ≠ c)).asString

/-- Embedding of Go `strings.ToLower` restricted to ASCII, which is all the
package's identifiers use (`Char.toLower` lowercases exactly ASCII letters). -/
def goToLower (s : String) : String :=
  (s.data.map Char.toLower).asString

/-- Embedding of Go `strings.Contains`. -/
def goContains (s sub : String) : Bool :=
  s.data.tails.any (fun t => sub.data.isPrefixOf t)

/-- Rendering of Go `%q` for the plain identifier strings the package quotes
in error messages (no escaping needed for those). -/
def goQuote (s : String) : String :=
  "\"" ++ s ++ "\""

/-- Embedding of `graphql.NameRegExp.MatchString` from the consumed GraphQL
library, the regular expression `/^[_A-Za-z][_0-9A-Za-z]*$/` (the spec's
"letters, digits, underscore, not leading digit" legal-name grammar). -/
def nameIsValidGraphQL (name : String) : Bool :=
  match name.data with
  | [] => false
  | c :: rest =>
      (c = '_' ∨ c.isAlpha : Bool) &&
        rest.all (fun d => (d = '_' ∨ d.isAlpha ∨ d.isDigit : Bool))

/-- The projections of Go `reflect.StructField` that the embedded functions
read: the declared name, the `json` struct tag (`""` when absent, as
`Tag.Get` returns), the `Anonymous` flag and the `PkgPath` (empty exactly for
exported fields). -/
structure GoMeta where
  fname : String
  jsonTag : String
  anonymous : Bool
  pkgPath : String
deriving DecidableEq, Repr

/-- Embedding of the Go `interface{}` values the package manipulates:
nil, the supported primitive kinds, slices and structs.  A struct carries its
type name and its fields in declaration order, each with its reflection
metadata. -/
inductive Value where
  | vnil
  | vbool (b : Bool)
  | vint (n : Int)
  | vint64 (n : Int)
  | vfloat (q : Rat)
  | vstr (s : String)
  | vlist (elems : List Value)
  | vstruct (typeName : String) (fields : List (GoMeta × Value))

/-- Embedding of the Go comparison `v == nil` on an `interface{}` value. -/
def Value.isNil : Value → Bool
  | .vnil => true
  | _ => false

/-- Go panic message used by `reflect.Value.Interface` on a value obtained
from an unexported struct field. -/
def unexportedPanicMsg : String :=
  "reflect.Value.Interface: cannot return value obtained from unexported field or method"

/-- Go panic message of the nil-pointer dereference raised by calling
`Kind()` on the nil `reflect.Type` that `reflect.TypeOf(nil)` returns. -/
def nilDerefPanicMsg : String :=
  "runtime error: invalid memory address or nil pointer dereference"

/-- Embedding of `fieldName` (utils.go) on the two tag/name strings it reads:
json tag name segment, stripped of separators, if valid; otherwise the
lowercased declared name stripped of separators. -/
def fieldNameStr (declaredName jsonTag : String) : String :=
  let splits := goSplit jsonTag ','
  let name := splits.headD ""
  if name = "-" ∧ splits.length = 1 then ""
  else
    let name := goStripChar name '_'
    if name ≠ "" ∧ nameIsValidGraphQL name then name
    else goToLower (goStripChar declaredName '_')

/-- Embedding of `fieldName` on a struct field. -/
def fieldName (m : GoMeta) : String :=
  fieldNameStr m.fname m.jsonTag

/-- First field of the struct (in declaration order) whose derived name
matches the key — the first loop of `ExtractField`. -/
def findDirect (fields : List (GoMeta × Value)) (key : String) : Option (GoMeta × Value) :=
  fields.find? (fun f => fieldName f.1 = key)

mutual

/-- Embedding of `ExtractField` (utils.go).  The `.error` results are the
panics of the Go code: calling `Kind()` on the nil type of a nil input, and
`reflect.Value.Interface()` on an unexported field (either a direct name
match or an embedded struct reached by the fallback search).  The Go code's
`!embed.IsValid()` guard never fires for a field of a valid struct and is
therefore not represented. -/
def ExtractField (s : Value) (key : String) : Except String Value :=
  match s with
  | .vnil => .error nilDerefPanicMsg
  | .vstruct _ fields =>
      (match findDirect fields key with
       | some f =>
           if f.1.pkgPath ≠ "" then .error unexportedPanicMsg
           else .ok f.2
       | none => searchEmbedded fields key)
  | _ => .ok .vnil

/-- The fallback loop of `ExtractField`: recurse into each anonymous field in
declaration order and return the first non-nil result.  Reaching an
unexported anonymous field panics in Go (`embed.Interface()`). -/
def searchEmbedded (fields : List (GoMeta × Value)) (key : String) : Except String Value :=
  match fields with
  | [] => .ok .vnil
  | (m, v) :: rest =>
      if !m.anonymous then searchEmbedded rest key
      else if m.pkgPath ≠ "" then .error unexportedPanicMsg
      else
        match ExtractField v key with
        | .error e => .error e
        | .ok r => if !r.isNil then .ok r else searchEmbedded rest key

end

/-- Loop body of `deepExtractFieldWithError`: apply `ExtractField` to each
segment in turn; a nil result at the first segment is an error, a nil result
later is a silent "no value". -/
def deepGo : List String → Nat → Value → Except String (Value × Option String)
  | [], _, value => .ok (value, none)
  | split :: rest, i, value =>
      match ExtractField value split with
      | .error e => .error e
      | .ok v =>
          if v.isNil then
            if i = 0 then
              .ok (.vnil, some ("unable to find field to extract: " ++ goQuote split))
            else .ok (.vnil, none)
          else deepGo rest (i + 1) v

/-- Embedding of `deepExtractFieldWithError` (utils.go).  The result pair is
Go's `(interface{}, error)` return; the outer `Except` is a propagating
panic from `ExtractField`. -/
def deepExtractFieldWithError (s : Value) (key : String) : Except String (Value × Option String) :=
  deepGo (goSplit key fieldPathSepChar) 0 s

/-- Embedding of the exported `DeepExtractField`, which runs
`deepExtractFieldWithError` and swallows the error component. -/
def DeepExtractField (s : Value) (key : String) : Except String Value :=
  match deepExtractFieldWithError s key with
  | .error e => .error e
  | .ok (value, _) => .ok value

/-- Iterated application of `ExtractField` to each segment in order, the
right-hand side of the spec's `deepExtractField` / `extractField` equation. -/
def iterExtract (s : Value) (segs : List String) : Except String Value :=
  segs.foldlM ExtractField s

/-! ## Comparators (comparator.go)

A Go `Comparator` is a value with a `Match(interface{}) bool` method; the
only stateful one is `limitLength`, whose `Match` increments a counter.  The
embedding makes the state explicit: `runMatch` returns the match result
together with the comparator to use for the next item.  The `sync.Mutex` in
`limitLength` only matters under parallel evaluation, which the reference
behaviour (sequential loop in `ResolveListField`) never does. -/

/-- The comparators built by the `NewListOperation` constructors of
comparator.go.  `limitLength` carries its `limit` and current `count`. -/
inductive Cmp where
  | intEqual (value : Int)
  | stringEqual (value : String)
  | notComparator (child : Cmp)
  | inComparator (values : List String)
  | integerComparator (operation : String) (value : Int)
  | limitLength (limit : Int) (count : Int)

/-- Go `int(f)` for a `float64` operand: truncation toward zero. -/
def ratTruncToInt (q : Rat) : Int :=
  if q < 0 then -(Rat.floor (-q)) else Rat.floor q

/-- One `Match` invocation: the boolean result and the comparator state for
the next invocation (only `limitLength` ever changes).  The unknown-operation
default of `integerComparator.Match` is unreachable in Go (the constructor
validates the operation and the method panics there); the embedding returns
false on that dead branch. -/
def Cmp.runMatch : Cmp → Value → Bool × Cmp
  | .intEqual value, raw =>
      (match raw with
       | .vint n => decide (n = value)
       | _ => false, .intEqual value)
  | .stringEqual value, raw =>
      (match raw with
       | .vstr s => decide (s = value)
       | _ => false, .stringEqual value)
  | .notComparator child, raw =>
      let (b, child2) := child.runMatch raw
      (!b, .notComparator child2)
  | .inComparator values, raw =>
      (match raw with
       | .vstr s => values.contains s
       | _ => false, .inComparator values)
  | .integerComparator op value, raw =>
      let matched :=
        match raw with
        | .vint n => some n
        | .vfloat q => some (ratTruncToInt q)
        | _ => none
      (match matched with
       | none => false
       | some n =>
           match op with
           | ">" => decide (n > value)
           | ">=" => decide (n ≥ value)
           | "<" => decide (n < value)
           | "<=" => decide (n ≤ value)
           | _ => false, .integerComparator op value)
  | .limitLength limit count, _ =>
      (decide (¬ count + 1 > limit), .limitLength limit (count + 1))

/-- Argument maps handed to the `NewListOperation` constructors
(`map[string]interface{}` as an association list). -/
def ArgMap : Type := List (String × Value)

/-- Embedding of `NewEqualComparator`. -/
def NewEqualComparator (arg : ArgMap) : Except String Cmp :=
  match List.lookup "Value" arg with
  | none => .error "filter argument is missing 'Value'"
  | some raw =>
      match raw with
      | .vint n => .ok (.intEqual n)
      | .vstr s => .ok (.stringEqual s)
      | _ => .error "unsupported argument value, strings and integers are supported"

/-- Embedding of `NewNotEqualComparator`. -/
def NewNotEqualComparator (arg : ArgMap) : Except String Cmp :=
  match NewEqualComparator arg with
  | .error e => .error e
  | .ok eq => .ok (.notComparator eq)

/-- Embedding of `NewInComparator`: the argument under "Values" must be a
slice whose every element is a string. -/
def NewInComparator (arg : ArgMap) : Except String Cmp :=
  match List.lookup "Values" arg with
  | none => .error "filter argument is missing 'Values'"
  | some raw =>
      match raw with
      | .vlist items =>
          let strs := items.mapM (fun v => match v with | Value.vstr s => some s | _ => none)
          match strs with
          | none => .error "filter argument 'Values' should be a list of strings"
          | some values => .ok (.inComparator values)
      | _ => .error "filter argument 'Values' should be a list of strings"

/-- Embedding of `NewNotInComparator`. -/
def NewNotInComparator (arg : ArgMap) : Except String Cmp :=
  match NewInComparator arg with
  | .error e => .error e
  | .ok inC => .ok (.notComparator inC)

/-- Embedding of the constructor returned by `NewIntegerComparator(op)` for
the four supported operations. -/
def NewIntegerComparatorOp (op : String) (arg : ArgMap) : Except String Cmp :=
  match List.lookup "Value" arg with
  | none => .error "filter argument is missing 'Value'"
  | some raw =>
      match raw with
      | .vint n => .ok (.integerComparator op n)
      | _ => .error "filter argument 'Value' must be an integer"

/-- Embedding of `NewLimitLengthComparator`: a fresh `limitLength` with its
invocation count at zero. -/
def NewLimitLengthComparator (arg : ArgMap) : Except String Cmp :=
  match List.lookup "Value" arg with
  | none => .error "filter argument is missing 'Value'"
  | some raw =>
      match raw with
      | .vint n => .ok (.limitLength n 0)
      | _ => .error "filter argument 'Value' must be an integer"

/-! ## List filter (filter part of builder.go) -/

/-- The parsed `listFilter`: the field path and the comparator. -/
structure ListFilter where
  fieldName : String
  op : Cmp

/-- Embedding of `listFilter.match`: an empty field path matches the
comparator against nil (the `limitLength` case); otherwise the field is
deep-extracted and a lookup error aborts the evaluation.  The result carries
the possibly-updated comparator state. -/
def matchFilter (fieldName : String) (op : Cmp) (raw : Value) :
    Except String (Bool × Cmp) :=
  if fieldName = "" then .ok (op.runMatch .vnil)
  else
    match deepExtractFieldWithError raw fieldName with
    | .error e => .error e
    | .ok (_, some e) => .error e
    | .ok (field, none) => .ok (op.runMatch field)

/-! ## Sort engine (sort.go)

`listSort` spawns `unprotectedListSort` in a goroutine and waits on its error
channel; the goroutine runs sequentially and its deferred `recover` converts
every panic into a returned error, so the pair is embedded as one function
whose `.error` results are Go's returned errors.  The in-place slice is
threaded explicitly; on the error paths that fire before `sort.SliceStable`
runs, the Go slice is untouched.  Indices are `Nat`: all Go index arithmetic
in `sort.SliceStable` stays non-negative on the ranges it is invoked with. -/

/-- Go constant `ascending`. -/
def ascendingOrder : String := "ASC"

/-- Go constant `descending`. -/
def descendingOrder : String := "DESC"

/-- The parsed sort argument, Go struct `sortParameters`. -/
structure SortParams where
  field : String
  order : String

/-- The key-extraction closure `extracFunc` of `unprotectedListSort`, applied
to one list item: the item itself when the field path is empty, otherwise the
deep-extracted field.  A non-nil extraction error is `panic(err)` in Go, and
a propagating panic from extraction itself is also a panic, so both are
`.error`. -/
def sortExtract (field : String) (item : Value) : Except String Value :=
  if field = "" then .ok item
  else
    match deepExtractFieldWithError item field with
    | .error e => .error e
    | .ok (_, some e) => .error e
    | .ok (v, none) => .ok v

/-- The four runtime key types `unprotectedListSort` supports. -/
inductive SortKind where
  | int
  | int64
  | str
  | float

/-- Outcome of the `switch field.(type)` dispatch in `unprotectedListSort`. -/
inductive SortDispatch where
  | supported (k : SortKind)
  | isNil
  | unknown

/-- The `switch field.(type)` of `unprotectedListSort`. -/
def sortKeyDispatch : Value → SortDispatch
  | .vint _ => .supported .int
  | .vint64 _ => .supported .int64
  | .vstr _ => .supported .str
  | .vfloat _ => .supported .float
  | .vnil => .isNil
  | _ => .unknown

/-- Go panic message of a failed type assertion (`x.(int)` etc.) inside the
specialized less functions; the exact text is irrelevant to every claim, only
that the comparison panics. -/
def typeAssertPanicMsg : String :=
  "interface conversion: list item key does not have the sort key type"

/-- The type of the Go `lessFunc` closures: they read the current state of
the slice being sorted, so the embedding passes the current list. -/
def LessF : Type := List Value → Nat → Nat → Except String Bool

/-- The type assertion `x.(T)` performed inside the specialized less
functions: the value must carry exactly the chosen key kind, otherwise Go
panics. -/
def assertKeyKind (k : SortKind) (v : Value) : Except String Value :=
  match k, v with
  | .int, .vint n => .ok (.vint n)
  | .int64, .vint64 n => .ok (.vint64 n)
  | .str, .vstr s => .ok (.vstr s)
  | .float, .vfloat q => .ok (.vfloat q)
  | _, _ => .error typeAssertPanicMsg

/-- The `<` comparison of two already-asserted keys of the same kind. -/
def keyLt : Value → Value → Bool
  | .vint a, .vint b => decide (a < b)
  | .vint64 a, .vint64 b => decide (a < b)
  | .vstr a, .vstr b => decide (a < b)
  | .vfloat a, .vfloat b => decide (a < b)
  | _, _ => false

/-- The kind-specialized less function built by `unprotectedListSort`, in
the Go evaluation order: extract the key of index `i` and assert its type,
then the same for `j`, then compare.  Failed assertions and extraction
failures are panics. -/
def kindLess (k : SortKind) (extract : Value → Except String Value) : LessF :=
  fun l i j => do
    let vi ← extract (l.getD i .vnil)
    let ai ← assertKeyKind k vi
    let vj ← extract (l.getD j .vnil)
    let aj ← assertKeyKind k vj
    pure (keyLt ai aj)

/-- Embedding of `notLess`: the logical negation of a less function (errors,
i.e. panics, propagate unchanged). -/
def notLess (parent : LessF) : LessF :=
  fun l i j => do
    let b ← parent l i j
    pure (!b)

/-- One `data.Swap(i, j)` on the embedded slice. -/
def listSwap (l : List Value) (i j : Nat) : List Value :=
  match l.get? i, l.get? j with
  | some x, some y => (l.set i y).set j x
  | _, _ => l

/-- Inner loop of the Go standard library's `insertionSort`: move element `j`
left while it is greater than `a` and less than its left neighbour (the
bounds check comes first, as in Go, so no comparison runs once `j` reaches
`a`). -/
def insertInner (less : LessF) (a : Nat) : Nat → List Value → Except String (List Value)
  | 0, l => .ok l
  | j + 1, l =>
      if a < j + 1 then
        match less l (j + 1) j with
        | .error e => .error e
        | .ok b =>
            if b then insertInner less a j (listSwap l (j + 1) j) else .ok l
      else .ok l

/-- Outer loop of `insertionSort`, `for i := a + 1; i < b; i++`.  The first
argument of the final group is the remaining iteration budget, which only
makes the recursion structural: it starts at `b`, an upper bound on the
number of iterations (each iteration increments `i` and the loop stops as
soon as `i < b` fails), so the budget never runs out before the loop's own
guard ends the loop. -/
def insertLoop (less : LessF) (a b : Nat) : Nat → Nat → List Value → Except String (List Value)
  | 0, _, l => .ok l
  | fuel + 1, i, l =>
      if i < b then
        match insertInner less a i l with
        | .error e => .error e
        | .ok l2 => insertLoop less a b fuel (i + 1) l2
      else .ok l

/-- Go `insertionSort(data, a, b)`. -/
def insertionSort (less : LessF) (a b : Nat) (l : List Value) : Except String (List Value) :=
  insertLoop less a b b (a + 1) l

/-- Binary search of the `m-a == 1` branch of Go `symMerge`: lowest
`i` in `[m, b)` with `!data.Less(i, a)`.  The iteration budget starts at the
upper bound `b` of the search interval; the interval `j - i` shrinks by at
least one per iteration, so the budget never runs out before the guard
`i < j` fails. -/
def bsearch1 (less : LessF) (l : List Value) (a : Nat) : Nat → Nat → Nat → Except String Nat
  | 0, i, _ => .ok i
  | fuel + 1, i, j =>
      if i < j then
        let c := (i + j) / 2
        match less l c a with
        | .error e => .error e
        | .ok b => if b then bsearch1 less l a fuel (c + 1) j else bsearch1 less l a fuel i c
      else .ok i

/-- Binary search of the `b-m == 1` branch of Go `symMerge`: lowest
`i` in `[a, m)` with `data.Less(m, i)`; iteration budget as in `bsearch1`. -/
def bsearch2 (less : LessF) (l : List Value) (m : Nat) : Nat → Nat → Nat → Except String Nat
  | 0, i, _ => .ok i
  | fuel + 1, i, j =>
      if i < j then
        let c := (i + j) / 2
        match less l m c with
        | .error e => .error e
        | .ok b => if !b then bsearch2 less l m fuel (c + 1) j else bsearch2 less l m fuel i c
      else .ok i

/-- The symmetric binary search of the general branch of Go `symMerge`,
with fixed mirror point `p`; iteration budget as in `bsearch1`. -/
def bsearch3 (less : LessF) (l : List Value) (p : Nat) : Nat → Nat → Nat → Except String Nat
  | 0, start, _ => .ok start
  | fuel + 1, start, r =>
      if start < r then
        let c := (start + r) / 2
        match less l (p - c) c with
        | .error e => .error e
        | .ok b =>
            if !b then bsearch3 less l p fuel (c + 1) r else bsearch3 less l p fuel start c
      else .ok start

/-- Shift loop `for k := a; k < lim; k++ { swap(k, k+1) }` of `symMerge`;
the iteration budget starts at `lim`, an upper bound on the iterations. -/
def shiftLeftLoop (lim : Nat) : Nat → Nat → List Value → List Value
  | 0, _, l => l
  | fuel + 1, k, l => if k < lim then shiftLeftLoop lim fuel (k + 1) (listSwap l k (k + 1)) else l

/-- Shift loop `for k := m; k > i; k-- { swap(k, k-1) }` of `symMerge`
(structural on the decreasing `k`). -/
def shiftRightLoop (i : Nat) : Nat → List Value → List Value
  | 0, l => l
  | k + 1, l => if i < k + 1 then shiftRightLoop i k (listSwap l (k + 1) k) else l

/-- Go `swapRange(data, a, b, n)`. -/
def swapRange (a b : Nat) : Nat → List Value → List Value
  | 0, l => l
  | n + 1, l => swapRange (a + 1) (b + 1) n (listSwap l a b)

/-- The Euclid-style loop of Go `rotate`.  The iteration budget starts at
`i + j`, which shrinks by at least one per iteration while the guard
`i ≠ j` holds, so it never runs out before the loop exits (the callers pass
positive `i` and `j`). -/
def rotateLoop (m : Nat) : Nat → Nat → Nat → List Value → List Value
  | 0, i, j, l => if i = j then swapRange (m - i) m i l else l
  | fuel + 1, i, j, l =>
      if i = j then swapRange (m - i) m i l
      else if i > j then rotateLoop m fuel (i - j) j (swapRange (m - i) m j l)
      else rotateLoop m fuel i (j - i) (swapRange (m - i) (m + j - i) i l)

/-- Go `rotate(data, a, m, b)`. -/
def rotate (a m b : Nat) (l : List Value) : List Value :=
  rotateLoop m ((m - a) + (b - m)) (m - a) (b - m) l

/-- Go `symMerge(data, a, m, b)`: merge the sorted blocks `[a, m)` and
`[m, b)` in place.  The recursion budget starts at `b - a`; both recursive
calls are on strictly shorter intervals, so it never runs out on the
intervals the driver passes. -/
def symMerge (less : LessF) : Nat → Nat → Nat → Nat → List Value → Except String (List Value)
  | 0, _, _, _, l => .ok l
  | fuel + 1, a, m, b, l =>
      if m - a = 1 then
        match bsearch1 less l a b m b with
        | .error e => .error e
        | .ok i => .ok (shiftLeftLoop (i - 1) (i - 1) a l)
      else if b - m = 1 then
        match bsearch2 less l m m a m with
        | .error e => .error e
        | .ok i => .ok (shiftRightLoop i m l)
      else
        match bsearch3 less l ((a + b) / 2 + m - 1)
            (if m > (a + b) / 2 then (a + b) / 2 else m)
            (if m > (a + b) / 2 then (a + b) / 2 + m - b else a)
            (if m > (a + b) / 2 then (a + b) / 2 else m) with
        | .error e => .error e
        | .ok start =>
            let l2 :=
              if start < m ∧ m < (a + b) / 2 + m - start then
                rotate start m ((a + b) / 2 + m - start) l
              else l
            match
              (if a < start ∧ start < (a + b) / 2 then
                symMerge less fuel a start ((a + b) / 2) l2
              else .ok l2) with
            | .error e => .error e
            | .ok l3 =>
                if (a + b) / 2 < (a + b) / 2 + m - start ∧ (a + b) / 2 + m - start < b then
                  symMerge less fuel ((a + b) / 2) ((a + b) / 2 + m - start) b l3
                else .ok l3

/-- Block phase of the Go stable sort driver: insertion-sort each block of
20, `for b <= n`, then the tail block.  Iteration budget `n + 1` (the loop
advances `b` by 20 while `b ≤ n`). -/
def insBlocks (less : LessF) (n : Nat) : Nat → Nat → Nat → List Value → Except String (List Value)
  | 0, a, _, l => insertionSort less a n l
  | fuel + 1, a, b, l =>
      if b ≤ n then
        match insertionSort less a b l with
        | .error e => .error e
        | .ok l2 => insBlocks less n fuel b (b + 20) l2
      else insertionSort less a n l

/-- Inner merge loop of the driver, `for b <= n`, merging adjacent sorted
blocks of the current `blockSize`; iteration budget `n + 1`. -/
def mergeBlocks (less : LessF) (n blockSize : Nat) : Nat → Nat → Nat → List Value → Except String (List Value)
  | 0, a, _, l =>
      if a + blockSize < n then symMerge less (n - a) a (a + blockSize) n l else .ok l
  | fuel + 1, a, b, l =>
      if b ≤ n then
        match symMerge less (b - a) a (a + blockSize) b l with
        | .error e => .error e
        | .ok l2 => mergeBlocks less n blockSize fuel b (b + 2 * blockSize) l2
      else if a + blockSize < n then symMerge less (n - a) a (a + blockSize) n l
      else .ok l

/-- Outer merge loop of the driver, `for blockSize < n`, doubling the block
size each round; iteration budget `n` (the block size at least doubles from
20 while it is below `n`). -/
def mergeLoop (less : LessF) (n : Nat) : Nat → Nat → List Value → Except String (List Value)
  | 0, _, l => .ok l
  | fuel + 1, blockSize, l =>
      if blockSize < n then
        match mergeBlocks less n blockSize (n + 1) 0 (2 * blockSize) l with
        | .error e => .error e
        | .ok l2 => mergeLoop less n fuel (2 * blockSize) l2
      else .ok l

/-- Go `stable(data, n)`, the algorithm behind `sort.SliceStable`: insertion
sort on blocks of 20, then symmetric merging with doubling block size. -/
def stableDriver (less : LessF) (n : Nat) (l : List Value) : Except String (List Value) :=
  match insBlocks less n (n + 1) 0 20 l with
  | .error e => .error e
  | .ok l2 => mergeLoop less n n 20 l2

/-- Go `sort.SliceStable(list, less)`. -/
def sliceStable (less : LessF) (l : List Value) : Except String (List Value) :=
  stableDriver less l.length l

/-- Embedding of `listSort` together with `unprotectedListSort`: no-op below
two items; determine the key kind from the first item; `nil` or unsupported
kinds are errors emitted before any comparison; `DESC` negates the less
function; panics raised during extraction or comparison are recovered and
prefixed with "failed to sort: ". -/
def listSort (params : SortParams) (list : List Value) : Except String (List Value) :=
  if list.length < 2 then .ok list
  else
    match sortExtract params.field (list.getD 0 .vnil) with
    | .error e => .error ("failed to sort: " ++ e)
    | .ok firstKey =>
        match sortKeyDispatch firstKey with
        | .isNil => .error ("unable to extract sort field " ++ goQuote params.field)
        | .unknown => .error ("unknown type for sort field " ++ goQuote params.field)
        | .supported k =>
            let base := kindLess k (sortExtract params.field)
            let less := if params.order = descendingOrder then notLess base else base
            match sliceStable less list with
            | .error e => .error ("failed to sort: " ++ e)
            | .ok l2 => .ok l2

/-! ## List-field resolution pipeline (`ResolveListField`, builder.go)

`ResolveListField` parses the filter and sort arguments, resolves the raw
field value, and then post-processes it.  The embedding below models that
post-processing (the part all list-pipeline claims are about), taking the
already-parsed filter and sort parameters and the already-resolved value. -/

/-- The filter loop of `ResolveListField`: evaluate the comparator once per
item, in order, threading the comparator state, and keep the matching items.
A match error aborts the whole resolution. -/
def filterLoop (fieldName : String) : Cmp → List Value → Except String (List Value)
  | _, [] => .ok []
  | op, item :: rest =>
      match matchFilter fieldName op item with
      | .error e => .error e
      | .ok (matched, op2) =>
          match filterLoop fieldName op2 rest with
          | .error e => .error e
          | .ok tail => .ok (if matched then item :: tail else tail)

/-- Post-processing of `ResolveListField` on the resolved value: skip
everything if neither filter nor sort is present; otherwise require a slice,
sort first (some filters depend on the item count), then filter, wrapping
filter errors with the hydrated-items guidance. -/
def resolveListCore (filter : Option ListFilter) (sortParams : Option SortParams)
    (resolvedValue : Value) : Except String Value :=
  if filter.isNone ∧ sortParams.isNone then .ok resolvedValue
  else
    match resolvedValue with
    | .vlist values =>
        match (match sortParams with
               | some p => listSort p values
               | none => .ok values) with
        | .error e => .error e
        | .ok sorted =>
            match filter with
            | none => .ok (.vlist sorted)
            | some f =>
                match filterLoop f.fieldName f.op sorted with
                | .error e =>
                    .error (e ++ ". Note: filtering and sorting is not available on hydrated items")
                | .ok filtered => .ok (.vlist filtered)
    | _ => .error "value returned from field is not a list as expected"

/-! ## Object builder (builder.go)

The parts of the GraphQL object graph that `NewObjectBuilder`,
`AddCustomFields`, `findObjectField` and `resolveGraphQLObject` manipulate:
output types with their field maps.  Field maps are association lists keyed
by field name; `AddFieldConfig(name, field)` is an insert keyed by the
field's own name, which is how every call site uses it. -/

/-- Embedding of the `graphql.Output` shapes `resolveGraphQLObject` digs
through: scalars, non-null and list wrappers, and objects with named
fields. -/
inductive GType where
  | scalar (name : String)
  | nonNull (ofType : GType)
  | glist (ofType : GType)
  | object (name : String) (fields : List (String × GType))

/-- An object extracted from an output type: its name and field map. -/
structure GObj where
  name : String
  fields : List (String × GType)

/-- Insert into a field map keyed by the field's name: replace an existing
binding in place or append (Go map insert, order-insensitive reading). -/
def insertField (fields : List (String × GType)) (f : String × GType) :
    List (String × GType) :=
  if (fields.lookup f.1).isSome then
    fields.map (fun p => if p.1 = f.1 then f else p)
  else fields ++ [f]

/-- Repeated `AddFieldConfig(field.Name, field)` over a list of fields. -/
def addFieldConfigs (fields adds : List (String × GType)) : List (String × GType) :=
  adds.foldl insertField fields

/-- Embedding of `resolveGraphQLObject`: dig past `NonNull` and `List`
wrappers to an underlying object. -/
def resolveGraphQLObject : GType → Option GObj
  | .object n fs => some ⟨n, fs⟩
  | .nonNull t => resolveGraphQLObject t
  | .glist t => resolveGraphQLObject t
  | .scalar _ => none

/-- Embedding of `findObjectField`: walk the path through nested object
fields; an empty path, a missing field, or a non-object field yields nil. -/
def findObjectField (fields : List (String × GType)) : List String → Option GObj
  | [] => none
  | p :: rest =>
      match fields.lookup p with
      | none => none
      | some t =>
          match resolveGraphQLObject t with
          | none => none
          | some child =>
              if rest = [] then some child else findObjectField child.fields rest

/-- Functional counterpart of mutating the object found by
`findObjectField` through a pointer: rebuild the field map with the overlay
fields inserted into the object at the path.  Returns the unchanged map when
the path does not resolve (in Go that case is unreachable because the caller
only mutates when `findObjectField` returned non-nil). -/
def updateTypeAtPath (adds : List (String × GType)) : GType → List String → GType
  | t, [] =>
      (match t with
       | .object n fs => .object n (addFieldConfigs fs adds)
       | other => other)
  | .nonNull t, path => .nonNull (updateTypeAtPath adds t path)
  | .glist t, path => .glist (updateTypeAtPath adds t path)
  | .object n fs, p :: rest =>
      .object n (fs.map (fun f => if f.1 = p then (f.1, updateTypeAtPath adds f.2 rest) else f))
  | .scalar n, _ :: _ => .scalar n

/-- Apply `updateTypeAtPath` below the first path segment of a field map. -/
def updateFieldsAtPath (fields : List (String × GType)) (path : List String)
    (adds : List (String × GType)) : List (String × GType) :=
  match path with
  | [] => fields
  | p :: rest =>
      fields.map (fun f => if f.1 = p then (f.1, updateTypeAtPath adds f.2 rest) else f)

/-- An interface as `AddCustomFields` sees it: its (prefixed) name and its
live field map, mutated in place by `AddFieldConfig`. -/
structure GIface where
  name : String
  fields : List (String × GType)

/-- The builder state, Go struct `ObjectBuilder`.  Maps are association
lists; `pfx` is the Go field `prefix`. -/
structure ObjectBuilderS where
  fieldAdditions : List (String × List (String × GType))
  interfaces : List (String × GIface)
  interfaceFields : List (String × List (String × GType))
  objects : List (String × GObj)
  pfx : String
  structs : List Value

/-- Insert into the generic association-list map. -/
def mapInsert {α : Type} (m : List (String × α)) (key : String) (v : α) :
    List (String × α) :=
  if (m.lookup key).isSome then
    m.map (fun p => if p.1 = key then (key, v) else p)
  else m ++ [(key, v)]

/-- Embedding of `NewObjectBuilder`: the namespace prefix must not contain
the field-path separator; nil fieldAdditions become an empty map. -/
def NewObjectBuilder (structs : List Value) (namePfx : String)
    (fieldAdditions : List (String × List (String × GType))) :
    Except String ObjectBuilderS :=
  if goContains namePfx FieldPathSeparator then
    .error ("namePrefix can not include the FieldPathSeparator " ++ goQuote FieldPathSeparator)
  else
    .ok
      { fieldAdditions := fieldAdditions
        interfaces := []
        interfaceFields := []
        objects := []
        pfx := namePfx
        structs := structs }

/-- One iteration of the `AddCustomFields` loop for the key/fields pair:
record the addition, and if the first path segment names a built interface,
attach the fields either at the object the rest of the path resolves to, or,
when `findObjectField` returns nil (empty rest or unresolvable path), at the
interface itself. -/
def addCustomFieldsEntry (ob : ObjectBuilderS) (key : String)
    (fields : List (String × GType)) : ObjectBuilderS :=
  let ob2 := { ob with fieldAdditions := mapInsert ob.fieldAdditions key fields }
  let splits := goSplit key fieldPathSepChar
  let ifaceName := splits.headD ""
  match ob2.interfaces.lookup ifaceName with
  | none => ob2
  | some iface =>
      let newFields :=
        match findObjectField iface.fields splits.tail with
        | none => addFieldConfigs iface.fields fields
        | some _ => updateFieldsAtPath iface.fields splits.tail fields
      { ob2 with
        interfaces :=
          mapInsert ob2.interfaces ifaceName { iface with fields := newFields } }

/-- Embedding of `AddCustomFields`: the loop over the supplied map. -/
def AddCustomFields (ob : ObjectBuilderS)
    (fieldAdditions : List (String × List (String × GType))) : ObjectBuilderS :=
  fieldAdditions.foldl (fun acc e => addCustomFieldsEntry acc e.1 e.2) ob

/-! ## Helper lemmas -/

theorem isNil_iff_eq_vnil (v : Value) : v.isNil = true ↔ v = .vnil := by
  cases v <;> simp [Value.isNil]

theorem goSplitAux_ne_nil (sep : Char) (l acc : List Char) : goSplitAux sep l acc ≠ [] := by
  induction l generalizing acc with
  | nil => simp [goSplitAux]
  | cons c rest ih =>
      simp only [goSplitAux]
      split
      · simp
      · exact ih (c :: acc)

theorem goSplit_exists_cons (s : String) (sep : Char) :
    ∃ h t, goSplit s sep = h :: t := by
  unfold goSplit
  rcases hx : goSplitAux sep s.data [] with _ | ⟨h, t⟩
  · exact absurd hx (goSplitAux_ne_nil sep s.data [])
  · exact ⟨h.asString, t.map List.asString, by simp⟩

theorem mem_of_anyTailsPrefix (c : Char) (l : List Char) :
    (l.tails.any fun t => [c].isPrefixOf t) = true ↔ c ∈ l := by
  induction l with
  | nil => simp
  | cons a as ih =>
      simp only [List.tails, List.any_cons, List.isPrefixOf_cons₂, List.isPrefixOf_nil_left,
        Bool.and_true, Bool.or_eq_true, List.mem_cons, ih, beq_iff_eq]

theorem goContains_sep_iff (s : String) :
    goContains s FieldPathSeparator = true ↔ fieldPathSepChar ∈ s.data := by
  have h : FieldPathSeparator.data = [fieldPathSepChar] := rfl
  rw [goContains, h]
  exact mem_of_anyTailsPrefix fieldPathSepChar s.data

/-! ## Claims about field extraction (C4, C5, C10) -/

/-- Sample mirroring the test type `testUnexported` of builder_test.go: one
unexported boolean field named `exported` (non-empty `PkgPath`). -/
def c4Unexported : Value :=
  .vstruct "testUnexported" [(⟨"exported", "", false, "gql"⟩, .vbool true)]

/-- Sample mirroring `testDoubleEmbed` of builder_test.go: two exported
embedded structs and one unexported embedded struct. -/
def c4DoubleEmbed : Value :=
  .vstruct "testDoubleEmbed"
    [(⟨"TestBase", "", true, ""⟩, .vstruct "TestBase" [(⟨"Id", "", false, ""⟩, .vstr "id")]),
     (⟨"TestBase2", "", true, ""⟩, .vstruct "TestBase2" [(⟨"Id2", "", false, ""⟩, .vstr "id2")]),
     (⟨"testUnexported", "", true, "gql"⟩, c4Unexported),
     (⟨"Extra", "", false, ""⟩, .vstr "x")]

/-- C4: the claim says an unexported field is never returned and unexported
embedded relations are skipped (not traversed) by `ExtractField`.  The code
has no `PkgPath` guard in `ExtractField`: a direct name match on an
unexported field calls `reflect.Value.Interface()` and panics, and the
fallback search reaches unexported embedded relations and panics on
`embed.Interface()` instead of skipping them.  Exported lookups (third
conjunct) work, so the failures are specifically the unexported accesses. -/
theorem extractField_unexported_panics :
    ExtractField c4Unexported "exported" = .error unexportedPanicMsg ∧
    ExtractField c4DoubleEmbed "bogus" = .error unexportedPanicMsg ∧
    ExtractField c4DoubleEmbed "id2" = .ok (.vstr "id2") :=
  ⟨rfl, rfl, rfl⟩

/-- C5: the claim says every non-record input, including nil, yields the
not-found result.  For a nil input `reflect.TypeOf(nil)` returns a nil
`reflect.Type` and calling `Kind()` on it panics with a nil-pointer
dereference; every other non-struct input does return nil. -/
theorem extractField_non_struct :
    ExtractField .vnil "id" = .error nilDerefPanicMsg ∧
    ExtractField (.vint 3) "id" = .ok .vnil ∧
    ExtractField (.vint64 3) "id" = .ok .vnil ∧
    ExtractField (.vfloat 1) "id" = .ok .vnil ∧
    ExtractField (.vbool true) "id" = .ok .vnil ∧
    ExtractField (.vstr "s") "id" = .ok .vnil ∧
    ExtractField (.vlist [.vint 1]) "id" = .ok .vnil :=
  ⟨rfl, rfl, rfl, rfl, rfl, rfl, rfl⟩

/-- C10: `DeepExtractField` is exactly the value component of
`deepExtractFieldWithError` with the error discarded, so a first-segment
lookup failure and a path that bottoms out on a missing value are
indistinguishable at this interface: both return nil. -/
theorem deepExtractField_discards_error (s : Value) (key : String) :
    DeepExtractField s key = (deepExtractFieldWithError s key).map Prod.fst ∧
    (∀ e, deepExtractFieldWithError s key = .ok (.vnil, some e) →
      DeepExtractField s key = .ok .vnil) ∧
    (deepExtractFieldWithError s key = .ok (.vnil, none) →
      DeepExtractField s key = .ok .vnil) := by
  refine ⟨?_, ?_, ?_⟩
  · cases h : deepExtractFieldWithError s key with
    | error e => simp [DeepExtractField, h, Except.map]
    | ok p => cases p with
        | mk v e => simp [DeepExtractField, h, Except.map]
  · intro e h
    simp [DeepExtractField, h]
  · intro h
    simp [DeepExtractField, h]

/-- Sample two-level record whose inner struct has no field `b`, so the path
`a_b` bottoms out with no value after a successful first hop. -/
def c10Outer : Value :=
  .vstruct "Outer" [(⟨"A", "", false, ""⟩, .vstruct "Inner" [(⟨"C", "", false, ""⟩, .vstr "x")])]

/-- Witness for C10: at the public interface, a first-segment failure
(`.vint` has no fields at all) and a bottomed-out path both yield nil. -/
theorem deepExtractField_discards_error_witness :
    DeepExtractField (.vint 1) "a" = .ok .vnil ∧ DeepExtractField c10Outer "a_b" = .ok .vnil :=
  ⟨(deepExtractField_discards_error (.vint 1) "a").2.1
      ("unable to find field to extract: " ++ goQuote "a") rfl,
   (deepExtractField_discards_error c10Outer "a_b").2.2 rfl⟩

/-! ## Claim C1: deepExtractFieldWithError -/

theorem iterExtract_nil (v : Value) : iterExtract v [] = .ok v := rfl

theorem iterExtract_cons (v : Value) (s : String) (rest : List String) :
    iterExtract v (s :: rest) =
      match ExtractField v s with
      | .error e => .error e
      | .ok w => iterExtract w rest := by
  unfold iterExtract
  rw [List.foldlM_cons]
  cases h : ExtractField v s <;> simp [h, Bind.bind, Except.bind]

theorem extractField_of_iterExtract_single {v w : Value} {s : String}
    (h : iterExtract v [s] = .ok w) : ExtractField v s = .ok w := by
  rw [iterExtract_cons] at h
  cases hx : ExtractField v s <;> rw [hx] at h <;> dsimp only at h
  · exact Except.noConfusion h
  · simp only [iterExtract, List.foldlM_nil] at h
    exact h

/-- A non-nil error component comes only out of the very first segment:
`deepGo` reports the not-found error exactly when the loop index is zero and
the first extraction returned nil. -/
theorem deepGo_some_inv (segs : List String) :
    ∀ (i : Nat) (v w : Value) (e : String), deepGo segs i v = .ok (w, some e) →
      i = 0 ∧ ∃ s0 rest, segs = s0 :: rest ∧ ExtractField v s0 = .ok .vnil ∧ w = .vnil ∧
        e = "unable to find field to extract: " ++ goQuote s0 := by
  induction segs with
  | nil =>
      intro i v w e h
      simp [deepGo] at h
  | cons s rest ih =>
      intro i v w e h
      unfold deepGo at h
      cases hx : ExtractField v s with
      | error e2 => rw [hx] at h; exact Except.noConfusion h
      | ok val =>
          rw [hx] at h
          dsimp only at h
          by_cases hn : val.isNil = true
          · rw [if_pos hn] at h
            have hval : val = .vnil := (isNil_iff_eq_vnil val).mp hn
            cases i with
            | zero =>
                rw [if_pos rfl] at h
                simp only [Except.ok.injEq, Prod.mk.injEq, Option.some.injEq] at h
                exact ⟨rfl, s, rest, rfl, hval ▸ hx, h.1.symm, h.2.symm⟩
            | succ n =>
                rw [if_neg (by omega)] at h
                simp at h
          · rw [if_neg hn] at h
            exact absurd (ih (i + 1) val w e h).1 (by omega)

/-- When every lookup along the whole path succeeds with a non-nil value,
`deepGo` returns the iterated extraction with no error. -/
theorem deepGo_all_found (segs : List String) :
    ∀ (i : Nat) (v : Value),
      (∀ n, 1 ≤ n → n ≤ segs.length →
        ∃ w, iterExtract v (segs.take n) = .ok w ∧ w.isNil = false) →
      ∃ r, iterExtract v segs = .ok r ∧ deepGo segs i v = .ok (r, none) := by
  induction segs with
  | nil => exact fun i v _ => ⟨v, rfl, rfl⟩
  | cons s rest ih =>
      intro i v hyp
      obtain ⟨w, hw, hwn⟩ := hyp 1 (by omega) (by simp)
      have hx : ExtractField v s = .ok w :=
        extractField_of_iterExtract_single (by simpa using hw)
      obtain ⟨r, hr, hd⟩ := ih (i + 1) w (fun n h1 h2 => by
        obtain ⟨w2, hw2, hw2n⟩ := hyp (n + 1) (by omega) (by simpa using h2)
        refine ⟨w2, ?_, hw2n⟩
        rw [List.take_succ_cons, iterExtract_cons, hx] at hw2
        exact hw2)
      refine ⟨r, ?_, ?_⟩
      · rw [iterExtract_cons, hx]
        exact hr
      · unfold deepGo
        rw [hx]
        dsimp only
        rw [if_neg (by rw [hwn]; exact Bool.false_ne_true)]
        exact hd

/-- When the path bottoms out on a nil value at a segment after the first,
`deepGo` returns nil with no error. -/
theorem deepGo_later_nil (segs : List String) :
    ∀ (i : Nat) (v : Value) (j : Nat),
      1 ≤ j → j ≤ segs.length → (i = 0 → 2 ≤ j) →
      (∀ n, 1 ≤ n → n < j →
        ∃ w, iterExtract v (segs.take n) = .ok w ∧ w.isNil = false) →
      iterExtract v (segs.take j) = .ok .vnil →
      deepGo segs i v = .ok (.vnil, none) := by
  induction segs with
  | nil =>
      intro i v j h1 h2
      simp at h2
      omega
  | cons s rest ih =>
      intro i v j h1 h2 hfirst hyp hnil
      rcases Nat.lt_or_ge j 2 with hj | hj
      · have hj1 : j = 1 := by omega
        subst hj1
        have hi : i ≠ 0 := fun h0 => by have := hfirst h0; omega
        have hx : ExtractField v s = .ok .vnil :=
          extractField_of_iterExtract_single (by simpa using hnil)
        unfold deepGo
        rw [hx]
        dsimp only
        rw [if_pos (show Value.isNil .vnil = true from rfl), if_neg hi]
      · obtain ⟨w, hw, hwn⟩ := hyp 1 (by omega) (by omega)
        have hx : ExtractField v s = .ok w :=
          extractField_of_iterExtract_single (by simpa using hw)
        unfold deepGo
        rw [hx]
        dsimp only
        rw [if_neg (by rw [hwn]; exact Bool.false_ne_true)]
        refine ih (i + 1) w (j - 1) (by omega) (by simp at h2; omega) (by omega)
          (fun n h1 h2 => ?_) ?_
        · obtain ⟨w2, hw2, hw2n⟩ := hyp (n + 1) (by omega) (by omega)
          refine ⟨w2, ?_, hw2n⟩
          rw [List.take_succ_cons, iterExtract_cons, hx] at hw2
          exact hw2
        · obtain ⟨j2, hj2⟩ : ∃ j2, j = j2 + 1 := ⟨j - 1, by omega⟩
          subst hj2
          rw [List.take_succ_cons, iterExtract_cons, hx] at hnil
          simpa using hnil

/-- C1: `deepExtractFieldWithError` returns the NotFound error exactly when
the first path segment resolves to nil on the input (first and second
conjuncts); when every separator-delimited segment resolves to a non-nil
value it returns the iterated application of `ExtractField` with no error
(third conjunct); and when a later (intermediate or final) segment resolves
to a missing value it returns nil with no error (fourth conjunct). -/
theorem deepExtractFieldWithError_spec (s : Value) (key : String) :
    (ExtractField s ((goSplit key fieldPathSepChar).headD "") = .ok .vnil →
      deepExtractFieldWithError s key =
        .ok (.vnil, some ("unable to find field to extract: " ++
          goQuote ((goSplit key fieldPathSepChar).headD "")))) ∧
    (∀ w e, deepExtractFieldWithError s key = .ok (w, some e) →
      ExtractField s ((goSplit key fieldPathSepChar).headD "") = .ok .vnil ∧ w = .vnil) ∧
    ((∀ n, 1 ≤ n → n ≤ (goSplit key fieldPathSepChar).length →
        ∃ w, iterExtract s ((goSplit key fieldPathSepChar).take n) = .ok w ∧ w.isNil = false) →
      ∃ r, iterExtract s (goSplit key fieldPathSepChar) = .ok r ∧
        deepExtractFieldWithError s key = .ok (r, none)) ∧
    (∀ j, 2 ≤ j → j ≤ (goSplit key fieldPathSepChar).length →
      (∀ n, 1 ≤ n → n < j →
        ∃ w, iterExtract s ((goSplit key fieldPathSepChar).take n) = .ok w ∧ w.isNil = false) →
      iterExtract s ((goSplit key fieldPathSepChar).take j) = .ok .vnil →
      deepExtractFieldWithError s key = .ok (.vnil, none)) := by
  obtain ⟨s0, rest, hsegs⟩ := goSplit_exists_cons key fieldPathSepChar
  refine ⟨?_, ?_, ?_, ?_⟩
  · intro hx
    rw [hsegs] at hx
    simp only [List.headD_cons] at hx
    unfold deepExtractFieldWithError
    rw [hsegs]
    simp only [List.headD_cons]
    unfold deepGo
    rw [hx]
    dsimp only
    rw [if_pos (show Value.isNil .vnil = true from rfl), if_pos rfl]
  · intro w e h
    unfold deepExtractFieldWithError at h
    obtain ⟨_, s1, rest1, hseg1, hx1, hw, _⟩ := deepGo_some_inv _ 0 s w e h
    rw [hsegs] at hseg1
    obtain ⟨h1, _⟩ := List.cons.injEq .. ▸ hseg1
    rw [hsegs]
    simp only [List.headD_cons]
    exact ⟨h1 ▸ hx1, hw⟩
  · intro hyp
    exact deepGo_all_found _ 0 s hyp
  · intro j hj2 hjlen hyp hnil
    exact deepGo_later_nil _ 0 s j (by omega) hjlen (fun _ => hj2) hyp hnil

/-- Sample two-level record for the C1 witness: `a` leads to an inner struct
with a field `b`; `a_miss` bottoms out at the second level; `zzz` fails at
the first segment. -/
def c1Outer : Value :=
  .vstruct "Outer" [(⟨"A", "", false, ""⟩, .vstruct "Inner" [(⟨"B", "", false, ""⟩, .vstr "x")])]

/-- Witness for C1: the three behaviours at concrete inputs, obtained by
applying `deepExtractFieldWithError_spec` with its hypotheses discharged by
evaluation. -/
theorem deepExtractFieldWithError_spec_witness :
    deepExtractFieldWithError c1Outer "a_b" = .ok (.vstr "x", none) ∧
    deepExtractFieldWithError c1Outer "a_miss" = .ok (.vnil, none) ∧
    deepExtractFieldWithError c1Outer "zzz" =
      .ok (.vnil, some ("unable to find field to extract: " ++ goQuote "zzz")) := by
  refine ⟨?_, ?_, ?_⟩
  · obtain ⟨r, hr, hd⟩ := (deepExtractFieldWithError_spec c1Outer "a_b").2.2.1 (by
      intro n h1 h2
      simp only [show (goSplit "a_b" fieldPathSepChar).length = 2 from rfl] at h2
      interval_cases n
      · exact ⟨.vstruct "Inner" [(⟨"B", "", false, ""⟩, .vstr "x")], rfl, rfl⟩
      · exact ⟨.vstr "x", rfl, rfl⟩)
    have hrx : r = .vstr "x" := by
      have hev : iterExtract c1Outer (goSplit "a_b" fieldPathSepChar) = .ok (.vstr "x") := rfl
      rw [hev] at hr
      exact (Except.ok.inj hr).symm
    rw [hrx] at hd
    exact hd
  · exact (deepExtractFieldWithError_spec c1Outer "a_miss").2.2.2 2 (by omega) (by decide)
      (fun n h1 h2 => by
        interval_cases n
        exact ⟨.vstruct "Inner" [(⟨"B", "", false, ""⟩, .vstr "x")], rfl, rfl⟩)
      rfl
  · exact (deepExtractFieldWithError_spec c1Outer "zzz").1 rfl

/-! ## Claim C6: the field-naming rule -/

theorem goSplitAux_length_one_iff (sep : Char) (l acc : List Char) :
    (goSplitAux sep l acc).length = 1 ↔ sep ∉ l := by
  induction l generalizing acc with
  | nil => simp [goSplitAux]
  | cons c rest ih =>
      simp only [goSplitAux, List.mem_cons]
      by_cases hc : c = sep
      · rw [if_pos hc]
        simp only [List.length_cons]
        constructor
        · intro h
          exfalso
          exact goSplitAux_ne_nil sep rest []
            (List.length_eq_zero.mp (by omega))
        · intro h
          exact absurd (Or.inl hc.symm) h
      · rw [if_neg hc, ih (c :: acc)]
        have hne : ¬ sep = c := fun h => hc h.symm
        simp [hne]

theorem goSplitAux_no_sep (sep : Char) (l acc : List Char) (h : sep ∉ l) :
    goSplitAux sep l acc = [acc.reverse ++ l] := by
  induction l generalizing acc with
  | nil => simp [goSplitAux]
  | cons c rest ih =>
      have hc : ¬ c = sep := fun he => h (by rw [← he]; exact List.mem_cons_self c rest)
      rw [goSplitAux, if_neg hc, ih (c :: acc) (fun hm => h (List.mem_cons_of_mem c hm))]
      simp

/-- The lone-skip-marker condition of the code (`splits[0] == "-"` and no
other tag options) holds exactly when the whole tag is the literal "-". -/
theorem goSplit_single_dash_iff (t : String) :
    ((goSplit t ',').headD "" = "-" ∧ (goSplit t ',').length = 1) ↔ t = "-" := by
  constructor
  · rintro ⟨hh, hl⟩
    have hl2 : (goSplitAux ',' t.data []).length = 1 := by simpa [goSplit] using hl
    have hns : (',' : Char) ∉ t.data := (goSplitAux_length_one_iff ',' t.data []).mp hl2
    have hrw := goSplitAux_no_sep ',' t.data [] hns
    rw [goSplit, hrw] at hh
    simp only [List.reverse_nil, List.nil_append, List.map_cons, List.map_nil,
      List.headD_cons] at hh
    rw [show t.data = t.toList from rfl, String.asString_toList] at hh
    exact hh
  · intro h
    subst h
    exact ⟨rfl, rfl⟩

/-- The naming rule exactly as the specification words it (a second
definition, deliberately following the spec text rather than the code, for
the refinement comparison): return empty when the whole tag is the lone skip
marker; if the tag supplies a non-empty name segment whose separator-stripped
form is non-empty and passes the legal-name grammar, use that stripped form
verbatim; otherwise lowercase the declared field name and strip
separators. -/
def fieldNameSpec (declaredName jsonTag : String) : String :=
  if jsonTag = "-" then ""
  else
    let seg := (goSplit jsonTag ',').headD ""
    let stripped := goStripChar seg '_'
    if seg ≠ "" ∧ stripped ≠ "" ∧ nameIsValidGraphQL stripped then stripped
    else goToLower (goStripChar declaredName '_')

theorem goStripChar_of_empty (c : Char) : goStripChar "" c = "" := rfl

/-- C6: the implemented field naming agrees with the specification's
three-rule description on every declared name and serialization tag. -/
theorem fieldName_matches_spec (declaredName jsonTag : String) :
    fieldNameStr declaredName jsonTag = fieldNameSpec declaredName jsonTag := by
  by_cases ht : jsonTag = "-"
  · subst ht
    rfl
  · simp only [fieldNameStr, fieldNameSpec]
    rw [if_neg (fun hc => ht ((goSplit_single_dash_iff jsonTag).mp hc)), if_neg ht]
    by_cases hA : goStripChar ((goSplit jsonTag ',').headD "") '_' ≠ "" ∧
        nameIsValidGraphQL (goStripChar ((goSplit jsonTag ',').headD "") '_') = true
    · rw [if_pos hA]
      rw [if_pos ⟨fun hseg => hA.1 (by rw [hseg]; rfl), hA.1, hA.2⟩]
    · rw [if_neg hA, if_neg (fun hB => hA ⟨hB.2.1, hB.2.2⟩)]

/-! ## Claim C9: listSort guard behaviour -/

/-- C9: `listSort` is an error-free no-op on lists of fewer than two items;
on longer lists, when the first item's sort key extracts to nil it fails
with the "unable to extract" error, and when it extracts to a value of an
unsupported kind it fails with the "unknown type" error — both messages are
produced by the type dispatch that runs before any comparison, and the list
is handed to the stable sort only after that dispatch succeeds. -/
theorem listSort_first_key_errors (params : SortParams) (l : List Value) :
    (l.length < 2 → listSort params l = .ok l) ∧
    (∀ v, 2 ≤ l.length → sortExtract params.field (l.getD 0 .vnil) = .ok v →
      (v = .vnil →
        listSort params l = .error ("unable to extract sort field " ++ goQuote params.field)) ∧
      (sortKeyDispatch v = .unknown →
        listSort params l = .error ("unknown type for sort field " ++ goQuote params.field))) := by
  constructor
  · intro h
    unfold listSort
    rw [if_pos h]
  · intro v hlen hex
    have hnl : ¬ l.length < 2 := by omega
    constructor
    · intro hv
      subst hv
      unfold listSort
      rw [if_neg hnl, hex]
      rfl
    · intro hd
      unfold listSort
      rw [if_neg hnl, hex]
      dsimp only
      rw [hd]

/-- Witness for C9: a one-item list is untouched; a nil first key and an
unsupported (boolean) first key produce the two pre-sort errors. -/
theorem listSort_first_key_errors_witness :
    listSort ⟨"x", "ASC"⟩ [.vint 5] = .ok [.vint 5] ∧
    listSort ⟨"", "ASC"⟩ [.vnil, .vnil] =
      .error ("unable to extract sort field " ++ goQuote "") ∧
    listSort ⟨"", "ASC"⟩ [.vbool true, .vbool false] =
      .error ("unknown type for sort field " ++ goQuote "") :=
  ⟨(listSort_first_key_errors ⟨"x", "ASC"⟩ [.vint 5]).1 (by decide),
   ((listSort_first_key_errors ⟨"", "ASC"⟩ [.vnil, .vnil]).2 .vnil (by decide) rfl).1 rfl,
   ((listSort_first_key_errors ⟨"", "ASC"⟩ [.vbool true, .vbool false]).2 (.vbool true)
      (by decide) rfl).2 rfl⟩

/-! ## Claim C3: sort before LIMIT -/

/-- The filter loop under a fresh-per-query `limitLength` comparator keeps
exactly the first `limit - count` items of whatever list it is given. -/
theorem filterLoop_limitLength (l : List Value) :
    ∀ lim cnt : Int, filterLoop "" (.limitLength lim cnt) l = .ok (l.take (lim - cnt).toNat) := by
  induction l with
  | nil =>
      intro lim cnt
      simp [filterLoop]
  | cons v rest ih =>
      intro lim cnt
      unfold filterLoop
      rw [show matchFilter "" (.limitLength lim cnt) v =
        .ok (decide (¬ cnt + 1 > lim), .limitLength lim (cnt + 1)) from rfl]
      dsimp only
      rw [ih lim (cnt + 1)]
      dsimp only
      by_cases hc : cnt + 1 > lim
      · rw [show (decide (¬ cnt + 1 > lim)) = false by simp [hc]]
        have h1 : (lim - (cnt + 1)).toNat = 0 := by omega
        have h2 : (lim - cnt).toNat = 0 := by omega
        rw [h1, h2]
        simp
      · rw [show (decide (¬ cnt + 1 > lim)) = true by simp [hc]]
        have h3 : (lim - cnt).toNat = (lim - (cnt + 1)).toNat + 1 := by omega
        rw [h3]
        simp [List.take_succ_cons]

/-- C3: when a list field resolves with both a sort argument and a LIMIT
filter of value `n` (the comparator `NewLimitLengthComparator` builds from
the argument map), the pipeline sorts first and then keeps exactly the first
`n` items of the sorted list in their post-sort order. -/
theorem resolveListField_sort_then_limit (p : SortParams) (values sorted : List Value) (n : Int)
    (hsort : listSort p values = .ok sorted) :
    NewLimitLengthComparator [("Value", .vint n)] = .ok (.limitLength n 0) ∧
    resolveListCore (some ⟨"", .limitLength n 0⟩) (some p) (.vlist values) =
      .ok (.vlist (sorted.take n.toNat)) := by
  refine ⟨rfl, ?_⟩
  unfold resolveListCore
  rw [if_neg (by simp)]
  dsimp only
  rw [hsort]
  dsimp only
  rw [filterLoop_limitLength sorted n 0]
  rw [show ((n : Int) - 0) = n from by omega]

/-- Witness for C3: a LIMIT of 2 over a five-item list combined with an
ascending sort yields exactly the first two items of the sorted list. -/
theorem resolveListField_sort_then_limit_witness :
    resolveListCore (some ⟨"", .limitLength 2 0⟩) (some ⟨"", "ASC"⟩)
        (.vlist [.vint 3, .vint 1, .vint 4, .vint 1, .vint 5]) =
      .ok (.vlist [.vint 1, .vint 1]) :=
  (resolveListField_sort_then_limit ⟨"", "ASC"⟩
    [.vint 3, .vint 1, .vint 4, .vint 1, .vint 5]
    [.vint 1, .vint 1, .vint 3, .vint 4, .vint 5] 2 rfl).2

/-! ## Claim C2: tie order under descending sort -/

/-- On a two-element list the Go stable sort performs exactly one comparison,
`Less(1, 0)` on the original order, and swaps when it returns true. -/
theorem sliceStable_pair (less : LessF) (x y : Value) (b : Bool)
    (h : less [x, y] 1 0 = .ok b) :
    sliceStable less [x, y] = .ok (if b then [y, x] else [x, y]) := by
  cases b
  · simp [sliceStable, stableDriver, insBlocks, insertionSort, insertLoop, insertInner,
      mergeLoop, listSwap, h]
  · simp [sliceStable, stableDriver, insBlocks, insertionSort, insertLoop, insertInner,
      mergeLoop, listSwap, h]

/-- Sample list item with an integer sort key `k` and a string payload that
makes equal-keyed items distinguishable. -/
def c2TieItem (k : Int) (id : String) : Value :=
  .vstruct "item" [(⟨"K", "", false, ""⟩, .vint k), (⟨"Id", "", false, ""⟩, .vstr id)]

/-- C2 (amended): "DESC" is indeed implemented by logically negating the
ascending less-than function, but the negation of a strict order is not
irreflexive — two items with equal sort keys compare as "less" in both
directions, so the stable insertion sort swaps them: descending order
reverses the relative input order of equal-keyed items, while ascending
order preserves it. -/
theorem descending_sort_reverses_ties (k : Int) (a b : String) :
    listSort ⟨"k", descendingOrder⟩ [c2TieItem k a, c2TieItem k b] =
      .ok [c2TieItem k b, c2TieItem k a] ∧
    listSort ⟨"k", ascendingOrder⟩ [c2TieItem k a, c2TieItem k b] =
      .ok [c2TieItem k a, c2TieItem k b] := by
  have hkk : (decide (k < k)) = false := decide_eq_false (lt_irrefl k)
  constructor
  · have hdesc : notLess (kindLess .int (sortExtract "k"))
        [c2TieItem k a, c2TieItem k b] 1 0 = .ok true := by
      have hred : notLess (kindLess .int (sortExtract "k"))
          [c2TieItem k a, c2TieItem k b] 1 0 = .ok (!decide (k < k)) := rfl
      rw [hred, hkk]
      rfl
    have hs := sliceStable_pair (notLess (kindLess .int (sortExtract "k")))
      (c2TieItem k a) (c2TieItem k b) true hdesc
    show (match sliceStable (notLess (kindLess .int (sortExtract "k")))
        [c2TieItem k a, c2TieItem k b] with
      | Except.error e => Except.error ("failed to sort: " ++ e)
      | Except.ok l2 => Except.ok l2) = Except.ok [c2TieItem k b, c2TieItem k a]
    rw [hs]
    rfl
  · have hasc : kindLess .int (sortExtract "k")
        [c2TieItem k a, c2TieItem k b] 1 0 = .ok false := by
      have hred : kindLess .int (sortExtract "k")
          [c2TieItem k a, c2TieItem k b] 1 0 = .ok (decide (k < k)) := rfl
      rw [hred, hkk]
    have hs := sliceStable_pair (kindLess .int (sortExtract "k"))
      (c2TieItem k a) (c2TieItem k b) false hasc
    show (match sliceStable (kindLess .int (sortExtract "k"))
        [c2TieItem k a, c2TieItem k b] with
      | Except.error e => Except.error ("failed to sort: " ++ e)
      | Except.ok l2 => Except.ok l2) = Except.ok [c2TieItem k a, c2TieItem k b]
    rw [hs]
    rfl

/-- Counterexample for C2 as stated: a descending sort of two items with
equal sort keys does not preserve their relative input order — the code
returns them swapped. -/
theorem descending_sort_reverses_ties_counterexample :
    listSort ⟨"k", "DESC"⟩ [c2TieItem 1 "x", c2TieItem 1 "y"] =
      .ok [c2TieItem 1 "y", c2TieItem 1 "x"] ∧
    [c2TieItem 1 "y", c2TieItem 1 "x"] ≠ [c2TieItem 1 "x", c2TieItem 1 "y"] :=
  ⟨rfl, by simp [c2TieItem]⟩

/-! ## Claim C7: custom-field overlays with unresolvable paths -/

/-- Sample builder with one built interface holding a single scalar field,
mirroring the `TestAddCustomFields` setup of builder_test.go. -/
def c7Builder : ObjectBuilderS :=
  { fieldAdditions := []
    interfaces := [("TestBase", ⟨"TestBase", [("id", .scalar "String")]⟩)]
    interfaceFields := []
    objects := []
    pfx := ""
    structs := [] }

/-- Counterexample for C7 as stated: an overlay key whose first segment
names a built interface but whose remaining path ("bogus") resolves to
nothing is not a no-op on the constructed interfaces — the overlay field is
attached at the top level of the interface. -/
theorem addCustomFields_unresolvable_not_noop :
    (AddCustomFields c7Builder [("TestBase_bogus", [("added", .scalar "String")])]).interfaces =
      [("TestBase", ⟨"TestBase", [("id", .scalar "String"), ("added", .scalar "String")]⟩)] ∧
    (AddCustomFields c7Builder [("TestBase_bogus", [("added", .scalar "String")])]).interfaces ≠
      c7Builder.interfaces := by
  refine ⟨rfl, ?_⟩
  intro h
  rw [show (AddCustomFields c7Builder
      [("TestBase_bogus", [("added", GType.scalar "String")])]).interfaces =
    [("TestBase", ⟨"TestBase", [("id", GType.scalar "String"), ("added", GType.scalar "String")]⟩)]
    from rfl] at h
  simp [c7Builder] at h

/-- C7 (amended): when the first path segment of a custom-field key names an
already-built interface but the remaining segments do not resolve to a
nested object among its fields, `AddCustomFields` is not a no-op: it takes
the same branch as an empty rest-path and attaches the overlay fields at the
top level of that interface (`findObjectField` returns nil in both cases and
the code then calls `AddFieldConfig` on the interface itself). -/
theorem addCustomFields_unresolvable_attaches_at_interface
    (ob : ObjectBuilderS) (key : String) (adds : List (String × GType)) (iface : GIface)
    (hl : ob.interfaces.lookup ((goSplit key fieldPathSepChar).headD "") = some iface)
    (hnf : findObjectField iface.fields (goSplit key fieldPathSepChar).tail = none) :
    (AddCustomFields ob [(key, adds)]).interfaces =
      mapInsert ob.interfaces ((goSplit key fieldPathSepChar).headD "")
        { iface with fields := addFieldConfigs iface.fields adds } := by
  unfold AddCustomFields
  simp only [List.foldl_cons, List.foldl_nil]
  unfold addCustomFieldsEntry
  dsimp only
  rw [hl]
  dsimp only
  rw [hnf]

/-- Witness for C7's amended statement at the concrete sample builder. -/
theorem addCustomFields_unresolvable_attaches_at_interface_witness :
    (AddCustomFields c7Builder [("TestBase_bogus", [("added", .scalar "String")])]).interfaces =
      mapInsert c7Builder.interfaces "TestBase"
        ⟨"TestBase", [("id", .scalar "String"), ("added", .scalar "String")]⟩ :=
  addCustomFields_unresolvable_attaches_at_interface c7Builder "TestBase_bogus"
    [("added", .scalar "String")] ⟨"TestBase", [("id", .scalar "String")]⟩ rfl rfl

/-! ## Claim about builder construction (C8) -/

/-- C8: `NewObjectBuilder` fails exactly when the namespace prefix contains
the field-path separator character, and otherwise returns the builder with
the supplied additions and structs. -/
theorem newObjectBuilder_prefix_validation (structs : List Value) (namePfx : String)
    (adds : List (String × List (String × GType))) :
    ((∃ e, NewObjectBuilder structs namePfx adds = .error e) ↔ fieldPathSepChar ∈ namePfx.data) ∧
    (fieldPathSepChar ∉ namePfx.data →
      NewObjectBuilder structs namePfx adds =
        .ok { fieldAdditions := adds, interfaces := [], interfaceFields := [], objects := [],
              pfx := namePfx, structs := structs }) := by
  constructor
  · constructor
    · rintro ⟨e, he⟩
      rw [← goContains_sep_iff]
      by_contra hc
      simp only [NewObjectBuilder, Bool.not_eq_true] at he
      rw [if_neg (by simp [hc])] at he
      exact Except.noConfusion he
    · intro hmem
      refine ⟨"namePrefix can not include the FieldPathSeparator " ++ goQuote FieldPathSeparator, ?_⟩
      simp only [NewObjectBuilder]
      rw [if_pos ((goContains_sep_iff namePfx).mpr hmem)]
  · intro hmem
    have hc : goContains namePfx FieldPathSeparator = false := by
      rw [← Bool.not_eq_true, goContains_sep_iff]
      exact hmem
    simp [NewObjectBuilder, hc]

/-- Witness for C8: a prefix with the separator is rejected, one without is
accepted. -/
theorem newObjectBuilder_prefix_validation_witness :
    (∃ e, NewObjectBuilder [] "bad_pfx" [] = .error e) ∧
    fieldPathSepChar ∉ ("goodpfx" : String).data ∧
    NewObjectBuilder [] "goodpfx" [] =
      .ok { fieldAdditions := [], interfaces := [], interfaceFields := [], objects := [],
            pfx := "goodpfx", structs := [] } :=
  ⟨(newObjectBuilder_prefix_validation [] "bad_pfx" []).1.mpr (by decide),
   by decide,
   (newObjectBuilder_prefix_validation [] "goodpfx" []).2 (by decide)⟩

end GqlGen
